import Mathlib

/-!
Verification development for `extract_all_images.py` of the DyldExtractor
repository.

The file under `src/` is the coordinator/worker script: it enumerates the
images of a dyld shared cache, fans one extraction job per image out to a
process pool, and each worker runs the five converter passes of the
DyldExtractor library on a private copy-on-write buffer of the cache before
serializing the result.

The converter passes themselves (`slide_info.processSlideInfo`,
`linkedit_optimizer.optimizeLinkedit`, `stub_fixer.fixStubs`,
`objc_fixer.fixObjC`, `macho_offset.optimizeOffsets`) and the two parsers
(`DyldContext`, `MachOContext`) are library code that is not part of the
source under verification; they are treated as parameters (the `Lib`
structure below), modelled from the spec: each pass may mutate the image
buffer, may emit log lines, and may fail with a Python exception.

Machine state that the script manipulates is made explicit:
a file system (`FS`), an event trace (`Event`) recording the order of the
pipeline passes and of the file-output actions, the captured log stream of
a worker, and the POSIX signal disposition table of a process.
-/

namespace DyldExtract

/-- Python exceptions that the script can raise or catch. -/
inductive PyErr where
  | indexError
  | keyError (key : String)
  | fileNotFound
  | addressNotMapped
  | libError (msg : String)
  deriving Repr, DecidableEq

/-- The message text an exception contributes to a formatted log record. -/
def PyErr.message : PyErr → String
  | .indexError => "IndexError"
  | .keyError k => "KeyError: " ++ k
  | .fileNotFound => "FileNotFoundError"
  | .addressNotMapped => "AddressNotMapped"
  | .libError m => m

/-- The two fields of a Mach-O segment command the script reads
(`linkeditSeg.fileoff`, `linkeditSeg.filesize`, lines 141-142). -/
structure SegmentCommand where
  fileoff : Nat
  filesize : Nat
  deriving Repr, DecidableEq

/-- The part of the library's `MachOContext` the script uses: the backing
byte buffer (`machoCtx.file`) and the segment dictionary keyed by segment
name (`machoCtx.segments`, whose values the script projects to the segment
command with `.seg`). -/
structure MachOContext where
  file : List Nat
  segments : List (String × SegmentCommand)
  deriving Repr, DecidableEq

/-- Dictionary lookup `machoCtx.segments[name]` (raises `KeyError` when the
name is absent; the `Option` result is turned into that exception at the
use site). -/
def MachOContext.getSegment (m : MachOContext) (name : String) : Option SegmentCommand :=
  (m.segments.find? (fun p => p.1 == name)).map (fun p => p.2)

/-- One entry of the cache's image directory (`dyldCtx.images[i]`). -/
structure ImageEntry where
  address : Nat
  pathFileOffset : Nat
  deriving Repr, DecidableEq

/-- One address-range mapping of the cache header. -/
structure Mapping where
  address : Nat
  size : Nat
  fileOffset : Nat
  deriving Repr, DecidableEq

/-- The parsed part of the cache header: mappings and image directory. -/
structure DyldInfo where
  mappings : List Mapping
  images : List ImageEntry
  deriving Repr, DecidableEq

/-- The library's `DyldContext`: parsed header data over the read-only
cache mapping's bytes. -/
structure DyldContext where
  info : DyldInfo
  file : List Nat
  deriving Repr, DecidableEq

/-- `dyldCtx.images`. -/
def DyldContext.images (d : DyldContext) : List ImageEntry :=
  d.info.images

/-- Modelled from the spec (§4.1): the library's
`DyldContext.convertAddr` is not under `src/`. "addressToOffset(addr):
linear/binary search over mappings; fails with AddressNotMapped if no
mapping contains addr". -/
def DyldContext.convertAddr (d : DyldContext) (addr : Nat) : Option Nat :=
  match d.info.mappings.find?
      (fun m => decide (m.address ≤ addr) && decide (addr < m.address + m.size)) with
  | none => none
  | some m => some (addr - m.address + m.fileOffset)

/-- Modelled from the spec (§4.1): the library's
`DyldContext.readString` is not under `src/`. "reads a null-terminated
string at the image entry's path offset" — returns the bytes up to and
including the terminator. -/
def DyldContext.readString (d : DyldContext) (off : Nat) : List Nat :=
  ((d.file.drop off).takeWhile (fun b => b != 0)) ++ [0]

/-- `bytes.decode("utf-8")`, modelled as byte-per-char decoding. -/
def decodeUtf8 (bs : List Nat) : String :=
  String.mk (bs.map Char.ofNat)

/-- A file system: the set of created directories and a map from path to
file content. -/
structure FS where
  dirs : List String
  files : List (String × List Nat)
  deriving Repr, DecidableEq

/-- Read the content of the file at path `p`, if it exists. -/
def FS.getFile (fs : FS) (p : String) : Option (List Nat) :=
  (fs.files.find? (fun q => q.1 == p)).map (fun q => q.2)

/-- Create or truncate-and-rewrite the file at path `p` with content `c`
(what `open(p, "wb+")` followed by a write does; `open` alone is this with
`c = []`). -/
def FS.setFile (fs : FS) (p : String) (c : List Nat) : FS :=
  { fs with files := (p, c) :: fs.files.filter (fun q => q.1 != p) }

/-- The directory part of a path string. -/
def parentDir (p : String) : String :=
  String.intercalate "/" ((p.splitOn "/").dropLast)

/-- `path.parent.mkdir(parents=True, exist_ok=True)`. -/
def FS.mkdirParents (fs : FS) (p : String) : FS :=
  { fs with dirs := parentDir p :: fs.dirs }

/-- `pathlib` path join `a / b` for a relative right operand. -/
def pathJoin (a b : String) : String :=
  a ++ "/" ++ b

/-- Lines 90-93: strip a single leading slash so the image path is
relative.  (Total companion of the code; on the empty string the code
itself raises `IndexError` before this point, see `extractImage`.) -/
def relPathOf (s : String) : String :=
  if s.front = '/' then s.drop 1 else s

/-- Observable actions of one worker, in order: a converter pass ran, the
output file's parent directories were created, the output file was opened
(`"wb+"`, creating it empty), the output bytes were written. -/
inductive Event where
  | stepRun (name : String)
  | mkdirParents (path : String)
  | fileOpened (path : String)
  | fileWritten (path : String) (content : List Nat)
  deriving Repr, DecidableEq

/-- What the script passes to a converter pass: the shared read-only cache
context and the worker's private mutable image context. -/
structure ExtractionContext where
  dyldCtx : DyldContext
  machoCtx : MachOContext

/-- A converter pass: reads the extraction context, emits log lines, and
either succeeds with the (possibly replaced) image context, or raises.
The type makes the read-only cache discipline explicit: a pass returns
only a new `MachOContext`, never a new cache. -/
def Step : Type :=
  ExtractionContext → (Except PyErr MachOContext) × List String

/-- The DyldExtractor library functions used by the script, none of which
are under `src/`: the two parsers and the five converter passes
(modelled from the spec, §4.2-§4.7, as opaque parameters). -/
structure Lib where
  parseDyld : List Nat → Except PyErr DyldInfo
  parseMachO : List Nat → Nat → Except PyErr MachOContext
  processSlideInfo : Step
  optimizeLinkedit : Step
  fixStubs : Step
  fixObjC : Step
  optimizeOffsets : Step

namespace logging

/-- `logging.ERROR`. -/
def ERROR : Nat := 40

/-- `logging.WARNING`. -/
def WARNING : Nat := 30

/-- `logging.INFO`. -/
def INFO : Nat := 20

/-- `logging.DEBUG`. -/
def DEBUG : Nat := 10

end logging

/-- The record `logger.exception(e)` formats into the stream. -/
def excLine (e : PyErr) : String :=
  "ERROR " ++ e.message

/-- `loggingStream.getvalue()`: each emitted record followed by the
stream handler's line terminator. -/
def emitLog (lines : List String) : String :=
  lines.foldl (fun acc s => acc ++ s ++ "\n") ""

/-- Lines 129-133: the five converter passes, run in the order written in
the source, threading the image context, accumulating the log lines each
pass emitted, and recording one `Event.stepRun` per pass started. -/
def runPipeline (lib : Lib) (d : DyldContext) (m : MachOContext) :
    (Except PyErr MachOContext) × List String × List Event :=
  match lib.processSlideInfo ⟨d, m⟩ with
  | (Except.error e, l1) => (Except.error e, l1, [Event.stepRun "processSlideInfo"])
  | (Except.ok m1, l1) =>
    match lib.optimizeLinkedit ⟨d, m1⟩ with
    | (Except.error e, l2) =>
        (Except.error e, l1 ++ l2,
         [Event.stepRun "processSlideInfo", Event.stepRun "optimizeLinkedit"])
    | (Except.ok m2, l2) =>
      match lib.fixStubs ⟨d, m2⟩ with
      | (Except.error e, l3) =>
          (Except.error e, l1 ++ l2 ++ l3,
           [Event.stepRun "processSlideInfo", Event.stepRun "optimizeLinkedit",
            Event.stepRun "fixStubs"])
      | (Except.ok m3, l3) =>
        match lib.fixObjC ⟨d, m3⟩ with
        | (Except.error e, l4) =>
            (Except.error e, l1 ++ l2 ++ l3 ++ l4,
             [Event.stepRun "processSlideInfo", Event.stepRun "optimizeLinkedit",
              Event.stepRun "fixStubs", Event.stepRun "fixObjC"])
        | (Except.ok m4, l4) =>
          match lib.optimizeOffsets ⟨d, m4⟩ with
          | (Except.error e, l5) =>
              (Except.error e, l1 ++ l2 ++ l3 ++ l4 ++ l5,
               [Event.stepRun "processSlideInfo", Event.stepRun "optimizeLinkedit",
                Event.stepRun "fixStubs", Event.stepRun "fixObjC",
                Event.stepRun "optimizeOffsets"])
          | (Except.ok m5, l5) =>
              (Except.ok m5, l1 ++ l2 ++ l3 ++ l4 ++ l5,
               [Event.stepRun "processSlideInfo", Event.stepRun "optimizeLinkedit",
                Event.stepRun "fixStubs", Event.stepRun "fixObjC",
                Event.stepRun "optimizeOffsets"])

/-- Lines 128-150, the body of the `try:` block: run the pipeline; only
when all five passes returned does the worker create the parent
directories, open the output file (creating it empty), look up the
`__LINKEDIT` segment, and write the first
`fileoff + filesize` bytes of the transformed buffer.  The result is the
exception (if one was raised inside the block), the emitted log lines,
the file system after the block, and the event trace. -/
def tryBlock (lib : Lib) (d : DyldContext) (m : MachOContext) (outputPath : String)
    (fs : FS) : (Except PyErr Unit) × List String × FS × List Event :=
  match runPipeline lib d m with
  | (Except.error e, logs, evs) => (Except.error e, logs, fs, evs)
  | (Except.ok m5, logs, evs) =>
    let fs1 := (fs.mkdirParents outputPath).setFile outputPath []
    let evs1 := evs ++ [Event.mkdirParents outputPath, Event.fileOpened outputPath]
    match m5.getSegment "__LINKEDIT" with
    | none => (Except.error (PyErr.keyError "__LINKEDIT"), logs, fs1, evs1)
    | some linkeditSeg =>
      let fileSize := linkeditSeg.fileoff + linkeditSeg.filesize
      let content := m5.file.take fileSize
      (Except.ok (), logs, fs1.setFile outputPath content,
       evs1 ++ [Event.fileWritten outputPath content])

/-- Lines 83-157, `_extractImage`: the worker function.  Before the `try:`
block it tests `imagePath[0]` (raising `IndexError` on an empty path),
opens the cache read-only, parses it, resolves the image's address and
parses the Mach-O; an exception in any of this escapes the worker and is
re-raised by `job.get()` in the coordinator.  Exceptions inside the
`try:` block are caught, formatted into the log by `logger.exception`
(which emits only when the logger level admits `ERROR` records), and the
worker returns the captured log text. -/
def extractImage (lib : Lib) (dyldPath outputDir : String) (imageIndex : Nat)
    (imagePath : String) (loggingLevel : Nat) (fs : FS) :
    (Except PyErr String) × FS × List Event :=
  if imagePath = "" then (Except.error PyErr.indexError, fs, [])
  else
    match fs.getFile dyldPath with
    | none => (Except.error PyErr.fileNotFound, fs, [])
    | some cacheBytes =>
      match lib.parseDyld cacheBytes with
      | Except.error e => (Except.error e, fs, [])
      | Except.ok info =>
        match (DyldContext.mk info cacheBytes).images.get? imageIndex with
        | none => (Except.error PyErr.indexError, fs, [])
        | some image =>
          match (DyldContext.mk info cacheBytes).convertAddr image.address with
          | none => (Except.error PyErr.addressNotMapped, fs, [])
          | some imageOffset =>
            -- `mmap(..., access=ACCESS_COPY)`: the image buffer handed to
            -- the parser is a private copy of the cache bytes.
            match lib.parseMachO cacheBytes imageOffset with
            | Except.error e => (Except.error e, fs, [])
            | Except.ok machoCtx =>
              match tryBlock lib (DyldContext.mk info cacheBytes) machoCtx
                  (pathJoin outputDir (relPathOf imagePath)) fs with
              | (Except.ok _, logs, fs2, evs) =>
                  (Except.ok (emitLog logs), fs2, evs)
              | (Except.error e, logs, fs2, evs) =>
                  (Except.ok (emitLog (logs ++
                    (if loggingLevel ≤ logging.ERROR then [excLine e] else []))),
                   fs2, evs)

/-- A POSIX signal disposition. -/
inductive Disposition where
  | SIG_DFL
  | SIG_IGN
  | handler (id : Nat)
  deriving Repr, DecidableEq

/-- `signal.SIGINT`. -/
def SIGINT : Nat := 2

/-- `signal.signal(signum, d)` on a process's disposition table. -/
def signalSet (table : Nat → Disposition) (signum : Nat) (d : Disposition) :
    Nat → Disposition :=
  fun s => if s = signum then d else table s

/-- Lines 74-80, `_workerInitializer`: ignore `SIGINT` in the worker so
only the main process receives it. -/
def workerSetup (table : Nat → Disposition) : Nat → Disposition :=
  signalSet table SIGINT Disposition.SIG_IGN

/-- The configuration `_main` constructs the pool with (line 196). -/
structure PoolConfig where
  initFn : (Nat → Disposition) → (Nat → Disposition)

/-- Line 196: `multiprocessing.Pool(initializer=_workerInitializer)`. -/
def mainPool : PoolConfig :=
  { initFn := workerSetup }

/-- Lines 165-170: the output directory defaults to `binaries` when the
`-o` option is absent. -/
def outputDirOf : Option String → String
  | none => "binaries"
  | some p => p

/-- Lines 174-182: map the CLI verbosity (argparse restricts it to
`{0, 1, 2, 3}`) to the worker logger level. -/
def loggingLevelOf (verbosity : Fin 4) : Nat :=
  if verbosity = 0 then 100
  else if verbosity = 1 then logging.WARNING
  else if verbosity = 2 then logging.INFO
  else logging.DEBUG

/-- Lines 184-194: the coordinator's single read-only enumeration pass —
one path per entry of the cache's image directory, read as a
null-terminated string, with the terminator sliced off (`[0:-1]`) before
decoding. -/
def imagePathsOf (info : DyldInfo) (cacheBytes : List Nat) : List String :=
  (DyldContext.mk info cacheBytes).images.map
    (fun image =>
      decodeUtf8 (((DyldContext.mk info cacheBytes).readString image.pathFileOffset).dropLast))

/-- The argument tuple `extractionArgs` that `_main` submits with each
job (line 202). -/
structure JobArgs where
  dyldPath : String
  outputDir : String
  imageIndex : Nat
  imagePath : String
  loggingLevel : Nat
  deriving Repr, DecidableEq

/-- Lines 200-204: `for i, imagePath in enumerate(imagePaths):` — submit
one job per image, pairing each submitted job with its image path; the
counter `i` mirrors the image's index in the cache. -/
def submitAux (dyldPath outputDir : String) (level : Nat) :
    Nat → List String → List (String × JobArgs)
  | _, [] => []
  | i, p :: rest =>
      (p, JobArgs.mk dyldPath outputDir i p level) ::
        submitAux dyldPath outputDir level (i + 1) rest

/-- Lines 160-204 up to job submission: read the cache, parse it,
enumerate the image paths once, then build the job list. -/
def mainSubmit (lib : Lib) (dyldPath : String) (output : Option String)
    (verbosity : Fin 4) (fs : FS) : Except PyErr (List (String × JobArgs)) :=
  match fs.getFile dyldPath with
  | none => Except.error PyErr.fileNotFound
  | some cacheBytes =>
    match lib.parseDyld cacheBytes with
    | Except.error e => Except.error e
    | Except.ok info =>
        Except.ok (submitAux dyldPath (outputDirOf output) (loggingLevelOf verbosity) 0
          (imagePathsOf info cacheBytes))

/-- A pending job as the coordinator sees it: the image path it was
submitted with, and the outcome `job.get()` will deliver — either the
worker's returned log text or a re-raised exception. -/
def Job : Type :=
  String × Except PyErr String

/-- Python's `str.split("/")` on a character list: splitting on every
slash, keeping empty pieces (structurally recursive so that concrete
runs evaluate). -/
def splitOnSlash : List Char → List (List Char)
  | [] => [[]]
  | c :: rest =>
    let r := splitOnSlash rest
    if c = '/' then [] :: r
    else (c :: r.headD []) :: r.tail

/-- `imagePath.split("/")[-1]` (line 222). -/
def imageNameOf (p : String) : String :=
  String.mk ((splitOnSlash p.data).getLastD [])

/-- The per-image summary block built at line 227. -/
def mkSummary (imageName jobOutput : String) : String :=
  "----- " ++ imageName ++ " -----\n" ++ jobOutput ++ "--------------------\n"

/-- The coordinator's mutable state inside the completion loop: the lines
printed so far, the accumulated `jobOutputs`, and (for specification
purposes) the jobs handled so far in handling order. -/
structure LoopState where
  prints : List String
  jobOutputs : List String
  processed : List Job

/-- Lines 218-234, handling one ready job: pop it, print the per-image
line, collect the result with `job.get()` (re-raising a worker
exception), and when the log text is non-empty record and print its
summary block. -/
def processJob (st : LoopState) (j : Job) : Except PyErr LoopState :=
  let imageName := imageNameOf j.1
  let st1 : LoopState := { st with prints := st.prints ++ ["Processed: " ++ imageName] }
  match j.2 with
  | Except.error e => Except.error e
  | Except.ok jobOutput =>
    if jobOutput = "" then
      Except.ok { st1 with processed := st1.processed ++ [j] }
    else
      Except.ok { st1 with
        prints := st1.prints ++ [mkSummary imageName jobOutput],
        jobOutputs := st1.jobOutputs ++ [mkSummary imageName jobOutput],
        processed := st1.processed ++ [j] }

/-- One sweep of `for i in reversed(range(len(jobs))):` — jobs at higher
indices are examined (and, when ready, handled) first; handled jobs are
popped, the others keep their order. -/
def passAux (ready : Job → Bool) : List Job → LoopState → Except PyErr (List Job × LoopState)
  | [], st => Except.ok ([], st)
  | j :: rest, st =>
    match passAux ready rest st with
    | Except.error e => Except.error e
    | Except.ok (rem, st1) =>
      if ready j then
        match processJob st1 j with
        | Except.error e => Except.error e
        | Except.ok st2 => Except.ok (rem, st2)
      else Except.ok (j :: rem, st1)

/-- Lines 216-236, `while len(jobs):` — repeatedly sweep the remaining
jobs, handling whichever are ready this round.  `ready round j` says
whether job `j` polls ready in sweep number `round`; `fuel` bounds the
number of sweeps so the (possibly non-terminating) poll loop is a total
function, `none` meaning the bound was reached with jobs still pending. -/
def collectLoop (ready : Nat → Job → Bool) :
    Nat → Nat → List Job → LoopState → Option (Except PyErr LoopState)
  | 0, _, jobs, st => if jobs.isEmpty then some (Except.ok st) else none
  | fuel + 1, round, jobs, st =>
    if jobs.isEmpty then some (Except.ok st)
    else
      match passAux (ready round) jobs st with
      | Except.error e => some (Except.error e)
      | Except.ok (rem, st1) => collectLoop ready fuel (round + 1) rem st1

/-- The summary blocks of exactly those handled jobs whose log text was
non-empty, in handling order. -/
def summariesOf (js : List Job) : List String :=
  js.filterMap (fun j =>
    match j.2 with
    | Except.error _ => none
    | Except.ok out => if out = "" then none else some (mkSummary (imageNameOf j.1) out))

/-- Lines 243-246: after the loop, the final aggregated summary is
printed — the concatenation of the recorded `jobOutputs`. -/
def finalPrints (st : LoopState) : List String :=
  st.prints ++
    ["\n\n----- Summary -----", String.join st.jobOutputs, "-------------------\n"]

/-! ## Helper lemmas -/

theorem find?_filter_eq {α : Type} (p q : α → Bool) (l : List α)
    (h : ∀ x, q x = true → p x = true) :
    (l.filter p).find? q = l.find? q := by
  induction l with
  | nil => rfl
  | cons a l ih =>
    by_cases hp : p a = true
    · rw [List.filter_cons_of_pos hp]
      by_cases hq : q a = true
      · rw [List.find?_cons_of_pos _ hq, List.find?_cons_of_pos _ hq]
      · rw [List.find?_cons_of_neg _ (by simp [hq]),
            List.find?_cons_of_neg _ (by simp [hq]), ih]
    · rw [List.filter_cons_of_neg (by simp [hp])]
      have hq : ¬ q a = true := fun hqa => hp (h a hqa)
      rw [List.find?_cons_of_neg _ (by simp [hq]), ih]

theorem FS.getFile_setFile_same (fs : FS) (p : String) (c : List Nat) :
    (fs.setFile p c).getFile p = some c := by
  simp [FS.getFile, FS.setFile, List.find?_cons_of_pos]

theorem FS.getFile_setFile_ne (fs : FS) (p q : String) (c : List Nat) (h : p ≠ q) :
    (fs.setFile p c).getFile q = fs.getFile q := by
  unfold FS.getFile FS.setFile
  rw [List.find?_cons_of_neg _ (by simp [h]), find?_filter_eq]
  intro x hx
  have hxq : x.1 = q := by simpa using hx
  simp [hxq]
  exact fun hh => h hh.symm

theorem FS.getFile_mkdirParents (fs : FS) (p q : String) :
    (fs.mkdirParents p).getFile q = fs.getFile q := rfl

theorem emitLog_concat (xs : List String) (x : String) :
    emitLog (xs ++ [x]) = emitLog xs ++ x ++ "\n" := by
  unfold emitLog
  rw [List.foldl_append]
  rfl

theorem emitLog_concat_ne (xs : List String) (x : String) :
    emitLog (xs ++ [x]) ≠ "" := by
  rw [emitLog_concat]
  intro hcontra
  have h2 := congrArg String.data hcontra
  simp [String.data_append] at h2

/-- Does the event record a converter pass run (as opposed to a file
action)? -/
def Event.isStepRun : Event → Bool
  | .stepRun _ => true
  | _ => false

theorem runPipeline_events_stepRun (lib : Lib) (d : DyldContext) (m : MachOContext) :
    ((runPipeline lib d m).2.2).all Event.isStepRun = true := by
  unfold runPipeline
  repeat' split
  all_goals rfl

theorem runPipeline_ok (lib : Lib) (d : DyldContext) (m m1 m2 m3 m4 m5 : MachOContext)
    (l1 l2 l3 l4 l5 : List String)
    (h1 : lib.processSlideInfo ⟨d, m⟩ = (Except.ok m1, l1))
    (h2 : lib.optimizeLinkedit ⟨d, m1⟩ = (Except.ok m2, l2))
    (h3 : lib.fixStubs ⟨d, m2⟩ = (Except.ok m3, l3))
    (h4 : lib.fixObjC ⟨d, m3⟩ = (Except.ok m4, l4))
    (h5 : lib.optimizeOffsets ⟨d, m4⟩ = (Except.ok m5, l5)) :
    runPipeline lib d m =
      (Except.ok m5, l1 ++ l2 ++ l3 ++ l4 ++ l5,
       [Event.stepRun "processSlideInfo", Event.stepRun "optimizeLinkedit",
        Event.stepRun "fixStubs", Event.stepRun "fixObjC",
        Event.stepRun "optimizeOffsets"]) := by
  simp only [runPipeline, h1, h2, h3, h4, h5]

theorem extractImage_pipelineError (lib : Lib) (dyldPath outputDir : String)
    (imageIndex : Nat) (imagePath : String) (lvl : Nat) (fs : FS)
    (cacheBytes : List Nat) (info : DyldInfo) (image : ImageEntry)
    (imageOffset : Nat) (machoCtx : MachOContext)
    (e : PyErr) (logs : List String) (evs : List Event)
    (hne : ¬ imagePath = "")
    (h1 : fs.getFile dyldPath = some cacheBytes)
    (h2 : lib.parseDyld cacheBytes = Except.ok info)
    (h3 : info.images.get? imageIndex = some image)
    (h4 : (DyldContext.mk info cacheBytes).convertAddr image.address = some imageOffset)
    (h5 : lib.parseMachO cacheBytes imageOffset = Except.ok machoCtx)
    (h6 : runPipeline lib (DyldContext.mk info cacheBytes) machoCtx =
      (Except.error e, logs, evs)) :
    extractImage lib dyldPath outputDir imageIndex imagePath lvl fs =
      (Except.ok (emitLog (logs ++ (if lvl ≤ logging.ERROR then [excLine e] else []))),
       fs, evs) := by
  simp only [extractImage, if_neg hne, h1, h2, DyldContext.images, h3, h4, h5,
    tryBlock, h6]

theorem extractImage_success (lib : Lib) (dyldPath outputDir : String)
    (imageIndex : Nat) (imagePath : String) (lvl : Nat) (fs : FS)
    (cacheBytes : List Nat) (info : DyldInfo) (image : ImageEntry)
    (imageOffset : Nat) (machoCtx m5 : MachOContext)
    (logs : List String) (evs : List Event) (seg : SegmentCommand)
    (hne : ¬ imagePath = "")
    (h1 : fs.getFile dyldPath = some cacheBytes)
    (h2 : lib.parseDyld cacheBytes = Except.ok info)
    (h3 : info.images.get? imageIndex = some image)
    (h4 : (DyldContext.mk info cacheBytes).convertAddr image.address = some imageOffset)
    (h5 : lib.parseMachO cacheBytes imageOffset = Except.ok machoCtx)
    (h6 : runPipeline lib (DyldContext.mk info cacheBytes) machoCtx =
      (Except.ok m5, logs, evs))
    (h7 : m5.getSegment "__LINKEDIT" = some seg) :
    extractImage lib dyldPath outputDir imageIndex imagePath lvl fs =
      (Except.ok (emitLog logs),
       ((fs.mkdirParents (pathJoin outputDir (relPathOf imagePath))).setFile
           (pathJoin outputDir (relPathOf imagePath)) []).setFile
         (pathJoin outputDir (relPathOf imagePath))
         (m5.file.take (seg.fileoff + seg.filesize)),
       evs ++ [Event.mkdirParents (pathJoin outputDir (relPathOf imagePath)),
               Event.fileOpened (pathJoin outputDir (relPathOf imagePath)),
               Event.fileWritten (pathJoin outputDir (relPathOf imagePath))
                 (m5.file.take (seg.fileoff + seg.filesize))]) := by
  simp only [extractImage, if_neg hne, h1, h2, DyldContext.images, h3, h4, h5,
    tryBlock, h6, h7]
  simp only [List.append_assoc, List.cons_append, List.nil_append]

theorem tryBlock_getFile_ne (lib : Lib) (d : DyldContext) (m : MachOContext)
    (outputPath q : String) (fs : FS) (h : ¬ outputPath = q) :
    ((tryBlock lib d m outputPath fs).2.2.1).getFile q = fs.getFile q := by
  unfold tryBlock
  split
  · rfl
  · split
    · show (((fs.mkdirParents outputPath).setFile outputPath []).getFile q) = _
      rw [FS.getFile_setFile_ne _ _ _ _ h, FS.getFile_mkdirParents]
    · show ((((fs.mkdirParents outputPath).setFile outputPath []).setFile outputPath _).getFile q) = _
      rw [FS.getFile_setFile_ne _ _ _ _ h, FS.getFile_setFile_ne _ _ _ _ h,
        FS.getFile_mkdirParents]

theorem processJob_ok (st : LoopState) (j : Job) (st2 : LoopState)
    (h : processJob st j = Except.ok st2) :
    st2.processed = st.processed ++ [j] ∧
    st2.jobOutputs = st.jobOutputs ++ summariesOf [j] ∧
    (∃ extra, st2.prints = st.prints ++ extra) ∧
    ("Processed: " ++ imageNameOf j.1) ∈ st2.prints ∧
    (∀ out, j.2 = Except.ok out → ¬ out = "" →
      mkSummary (imageNameOf j.1) out ∈ st2.prints) := by
  rcases j with ⟨p, r⟩
  rcases r with e | out
  · simp [processJob] at h
  · by_cases hout : out = ""
    · subst hout
      simp [processJob] at h
      subst h
      refine ⟨rfl, by simp [summariesOf], ⟨_, rfl⟩, by simp, ?_⟩
      intro out2 hout2 hne2
      have hoo : "" = out2 := by simpa using hout2
      exact absurd hoo.symm hne2
    · simp [processJob, hout] at h
      subst h
      refine ⟨rfl, by simp [summariesOf, hout], ⟨_, rfl⟩, by simp, ?_⟩
      intro out2 hout2 hne2
      have hoo : out = out2 := by simpa using hout2
      subst hoo
      simp

theorem passAux_spec (ready : Job → Bool) (jobs : List Job) (st : LoopState)
    (rem : List Job) (st2 : LoopState)
    (h : passAux ready jobs st = Except.ok (rem, st2)) :
    ∃ d, st2.processed = st.processed ++ d ∧
      List.Perm jobs (d ++ rem) ∧
      st2.jobOutputs = st.jobOutputs ++ summariesOf d ∧
      (∀ s ∈ st.prints, s ∈ st2.prints) ∧
      (∀ j ∈ d, ("Processed: " ++ imageNameOf j.1) ∈ st2.prints ∧
        (∀ out, j.2 = Except.ok out → ¬ out = "" →
          mkSummary (imageNameOf j.1) out ∈ st2.prints)) := by
  induction jobs generalizing rem st2 with
  | nil =>
    simp only [passAux, Except.ok.injEq, Prod.mk.injEq] at h
    obtain ⟨rfl, rfl⟩ := h
    exact ⟨[], by simp, by simp, by simp [summariesOf], fun s hs => hs, by simp⟩
  | cons j rest ih =>
    simp only [passAux] at h
    rcases hrec : passAux ready rest st with e | ⟨rem1, st1⟩
    · simp only [hrec] at h
      exact Except.noConfusion h
    · simp only [hrec] at h
      by_cases hr : ready j = true
      · rw [if_pos hr] at h
        rcases hpj : processJob st1 j with e | stJ
        · simp only [hpj] at h
          exact Except.noConfusion h
        · simp only [hpj, Except.ok.injEq, Prod.mk.injEq] at h
          obtain ⟨rfl, rfl⟩ := h
          obtain ⟨d1, hp1, hperm1, hjo1, hpr1, hjobs1⟩ := ih _ _ hrec
          obtain ⟨hpA, hpB, ⟨extra, hpC⟩, hpD, hpE⟩ := processJob_ok _ _ _ hpj
          refine ⟨d1 ++ [j], ?_, ?_, ?_, ?_, ?_⟩
          · rw [hpA, hp1, List.append_assoc]
          · have hEq : (d1 ++ [j]) ++ rem1 = d1 ++ (j :: rem1) := by simp
            rw [hEq]
            exact (hperm1.cons j).trans List.perm_middle.symm
          · simp only [hpB, hjo1, summariesOf, List.filterMap_append, List.append_assoc]
          · intro s hs
            rw [hpC]
            exact List.mem_append_left _ (hpr1 s hs)
          · intro j' hj'
            rcases List.mem_append.mp hj' with hl | hrr
            · have hprops := hjobs1 j' hl
              constructor
              · rw [hpC]; exact List.mem_append_left _ hprops.1
              · intro out hout hne2
                rw [hpC]
                exact List.mem_append_left _ (hprops.2 out hout hne2)
            · have : j' = j := by simpa using hrr
              subst this
              exact ⟨hpD, hpE⟩
      · rw [if_neg hr] at h
        simp only [Except.ok.injEq, Prod.mk.injEq] at h
        obtain ⟨rfl, rfl⟩ := h
        obtain ⟨d1, hp1, hperm1, hjo1, hpr1, hjobs1⟩ := ih _ _ hrec
        refine ⟨d1, hp1, ?_, hjo1, hpr1, hjobs1⟩
        exact (hperm1.cons j).trans List.perm_middle.symm

theorem collectLoop_spec (ready : Nat → Job → Bool) (fuel : Nat) :
    ∀ (round : Nat) (jobs : List Job) (st st' : LoopState),
      collectLoop ready fuel round jobs st = some (Except.ok st') →
      ∃ d, st'.processed = st.processed ++ d ∧ List.Perm jobs d ∧
        st'.jobOutputs = st.jobOutputs ++ summariesOf d ∧
        (∀ s ∈ st.prints, s ∈ st'.prints) ∧
        (∀ j ∈ d, ("Processed: " ++ imageNameOf j.1) ∈ st'.prints ∧
          (∀ out, j.2 = Except.ok out → ¬ out = "" →
            mkSummary (imageNameOf j.1) out ∈ st'.prints)) := by
  induction fuel with
  | zero =>
    intro round jobs st st' h
    simp only [collectLoop] at h
    split at h
    · next hj =>
      simp only [Option.some.injEq, Except.ok.injEq] at h
      subst h
      have : jobs = [] := List.isEmpty_iff.mp hj
      subst this
      exact ⟨[], by simp, List.Perm.refl _, by simp [summariesOf],
        fun s hs => hs, by simp⟩
    · exact absurd h (by simp)
  | succ n ih =>
    intro round jobs st st' h
    simp only [collectLoop] at h
    split at h
    · next hj =>
      simp only [Option.some.injEq, Except.ok.injEq] at h
      subst h
      have : jobs = [] := List.isEmpty_iff.mp hj
      subst this
      exact ⟨[], by simp, List.Perm.refl _, by simp [summariesOf],
        fun s hs => hs, by simp⟩
    · rcases hpa : passAux (ready round) jobs st with e | ⟨rem, st1⟩
      · simp only [hpa] at h
        exact Option.noConfusion h (fun hh => Except.noConfusion hh)
      · simp only [hpa] at h
        obtain ⟨d1, hp1, hperm1, hjo1, hpr1, hjobs1⟩ := passAux_spec _ _ _ _ _ hpa
        obtain ⟨d2, hp2, hperm2, hjo2, hpr2, hjobs2⟩ := ih _ _ _ _ h
        refine ⟨d1 ++ d2, ?_, ?_, ?_, ?_, ?_⟩
        · rw [hp2, hp1, List.append_assoc]
        · exact hperm1.trans (List.Perm.append_left d1 hperm2)
        · simp only [hjo2, hjo1, summariesOf, List.filterMap_append, List.append_assoc]
        · exact fun s hs => hpr2 s (hpr1 s hs)
        · intro j' hj'
          rcases List.mem_append.mp hj' with hl | hrr
          · have hprops := hjobs1 j' hl
            exact ⟨hpr2 _ hprops.1,
              fun out hout hne2 => hpr2 _ (hprops.2 out hout hne2)⟩
          · exact hjobs2 j' hrr

theorem submitAux_length (dyldPath outputDir : String) (level : Nat) :
    ∀ (paths : List String) (k : Nat),
      (submitAux dyldPath outputDir level k paths).length = paths.length := by
  intro paths
  induction paths with
  | nil => intro k; rfl
  | cons p rest ih => intro k; simp [submitAux, ih]

theorem submitAux_get? (dyldPath outputDir : String) (level : Nat) :
    ∀ (paths : List String) (k i : Nat),
      (submitAux dyldPath outputDir level k paths).get? i =
        (paths.get? i).map (fun p => (p, JobArgs.mk dyldPath outputDir (k + i) p level)) := by
  intro paths
  induction paths with
  | nil => intro k i; simp [submitAux]
  | cons p rest ih =>
    intro k i
    cases i with
    | zero => simp [submitAux]
    | succ n =>
      simp only [submitAux, List.get?_cons_succ, ih]
      simp only [Nat.add_succ, Nat.succ_add]

/-! ## Concrete fixtures used by witnesses and counterexamples -/

/-- A converter pass that succeeds immediately without touching the image
or logging (instantiates the abstract library on concrete runs). -/
def okStep : Step := fun ctx => (Except.ok ctx.machoCtx, [])

/-- A tiny parsed cache: one mapping covering addresses 0-7 at file
offset 0, one image at address 0 whose path string sits at offset 4. -/
def testInfo : DyldInfo :=
  { mappings := [⟨0, 8, 0⟩], images := [⟨0, 4⟩] }

/-- A concrete library instance whose parsers always succeed (yielding
`testInfo` and an image with a small `__LINKEDIT` segment) and whose five
passes are no-ops. -/
def testLib : Lib :=
  { parseDyld := fun _ => Except.ok testInfo
  , parseMachO := fun fileBytes _ =>
      Except.ok ⟨fileBytes, [("__LINKEDIT", ⟨1, 1⟩)]⟩
  , processSlideInfo := okStep
  , optimizeLinkedit := okStep
  , fixStubs := okStep
  , fixObjC := okStep
  , optimizeOffsets := okStep }

/-- Like `testLib` but the first pass raises, as it would on a corrupt
image. -/
def failLib : Lib :=
  { testLib with
    processSlideInfo := fun _ => (Except.error (PyErr.libError "bad slide info"), []) }

/-- A file system holding only the cache file. -/
def testFS : FS := { dirs := [], files := [("cache", [7, 7, 7])] }

/-- A file system in which the cache file happens to live inside the
output directory, at the very path image `/x` extracts to. -/
def fsCex : FS := { dirs := [], files := [("binaries/x", [7, 7, 7])] }

/-- The image context `testLib.parseMachO` produces on the test cache. -/
def testMacho : MachOContext :=
  { file := [7, 7, 7], segments := [("__LINKEDIT", ⟨1, 1⟩)] }

/-! ## Claims -/

/-- C1, counterexample to the claim as stated: at verbosity 0 the worker
logger's level is 100, above `logging.ERROR`, so a fatal error in the
pipeline (here the slide-info pass raising) is caught and the worker
returns normally — but the returned log text is empty: the fatal error is
NOT recorded in that image's log text. -/
theorem claim1_counterexample :
    extractImage failLib "cache" "out" 0 "/x" 100 testFS =
      (Except.ok "", testFS, [Event.stepRun "processSlideInfo"]) := rfl

/-- C1 (amended): for every image whose pre-pipeline setup succeeds, a
fatal error raised by the pipeline inside the `try:` block is caught
inside `_extractImage`: the worker returns normally (so `job.get()` in the
coordinator does not raise), the file system is left unchanged (the
failing image produces no output file), and — provided the worker's
logging level admits `ERROR` records, i.e. at every verbosity except 0 —
the error is recorded in the returned, necessarily non-empty, log text. -/
theorem claim1_amended (lib : Lib) (dyldPath outputDir : String) (imageIndex : Nat)
    (imagePath : String) (lvl : Nat) (fs : FS) (cacheBytes : List Nat) (info : DyldInfo)
    (image : ImageEntry) (imageOffset : Nat) (machoCtx : MachOContext)
    (e : PyErr) (logs : List String) (evs : List Event)
    (hne : ¬ imagePath = "")
    (h1 : fs.getFile dyldPath = some cacheBytes)
    (h2 : lib.parseDyld cacheBytes = Except.ok info)
    (h3 : info.images.get? imageIndex = some image)
    (h4 : (DyldContext.mk info cacheBytes).convertAddr image.address = some imageOffset)
    (h5 : lib.parseMachO cacheBytes imageOffset = Except.ok machoCtx)
    (h6 : runPipeline lib (DyldContext.mk info cacheBytes) machoCtx =
      (Except.error e, logs, evs))
    (hlvl : lvl ≤ logging.ERROR) :
    extractImage lib dyldPath outputDir imageIndex imagePath lvl fs =
      (Except.ok (emitLog (logs ++ [excLine e])), fs, evs) ∧
    ¬ emitLog (logs ++ [excLine e]) = "" := by
  refine ⟨?_, emitLog_concat_ne logs (excLine e)⟩
  rw [extractImage_pipelineError lib dyldPath outputDir imageIndex imagePath lvl fs
      cacheBytes info image imageOffset machoCtx e logs evs hne h1 h2 h3 h4 h5 h6,
    if_pos hlvl]

/-- C1, witness: a concrete failing pipeline at verbosity 1 (level 30):
the worker returns the log text carrying the error, and it is non-empty. -/
theorem claim1_witness :
    extractImage failLib "cache" "out" 0 "/x" 30 testFS =
      (Except.ok (emitLog ([] ++ [excLine (PyErr.libError "bad slide info")])), testFS,
        [Event.stepRun "processSlideInfo"]) ∧
    ¬ emitLog ([] ++ [excLine (PyErr.libError "bad slide info")]) = "" :=
  claim1_amended failLib "cache" "out" 0 "/x" 30 testFS [7, 7, 7] testInfo ⟨0, 4⟩ 0
    testMacho (PyErr.libError "bad slide info") [] [Event.stepRun "processSlideInfo"]
    (by decide) rfl rfl rfl rfl rfl rfl (by decide)

/-- C2: for every image whose pipeline run ends in a fatal error, the
worker's file system is exactly the one it started from — in particular no
(partially written) output file exists for that image — and the worker's
event trace holds only pipeline-pass events: no file was created, opened
or written, because the output file is touched only after all five passes
return. -/
theorem claim2 (lib : Lib) (dyldPath outputDir : String) (imageIndex : Nat)
    (imagePath : String) (lvl : Nat) (fs : FS) (cacheBytes : List Nat) (info : DyldInfo)
    (image : ImageEntry) (imageOffset : Nat) (machoCtx : MachOContext)
    (e : PyErr) (logs : List String) (evs : List Event)
    (hne : ¬ imagePath = "")
    (h1 : fs.getFile dyldPath = some cacheBytes)
    (h2 : lib.parseDyld cacheBytes = Except.ok info)
    (h3 : info.images.get? imageIndex = some image)
    (h4 : (DyldContext.mk info cacheBytes).convertAddr image.address = some imageOffset)
    (h5 : lib.parseMachO cacheBytes imageOffset = Except.ok machoCtx)
    (h6 : runPipeline lib (DyldContext.mk info cacheBytes) machoCtx =
      (Except.error e, logs, evs)) :
    (extractImage lib dyldPath outputDir imageIndex imagePath lvl fs).2.1 = fs ∧
    ((extractImage lib dyldPath outputDir imageIndex imagePath lvl fs).2.2).all
      Event.isStepRun = true := by
  rw [extractImage_pipelineError lib dyldPath outputDir imageIndex imagePath lvl fs
      cacheBytes info image imageOffset machoCtx e logs evs hne h1 h2 h3 h4 h5 h6]
  refine ⟨rfl, ?_⟩
  have hevs := runPipeline_events_stepRun lib (DyldContext.mk info cacheBytes) machoCtx
  rw [h6] at hevs
  exact hevs

/-- C2, witness: on a concrete failing image the file system is returned
untouched and the trace holds a single pipeline-pass event. -/
theorem claim2_witness :
    (extractImage failLib "cache" "out" 0 "/x" 100 testFS).2.1 = testFS ∧
    ((extractImage failLib "cache" "out" 0 "/x" 100 testFS).2.2).all
      Event.isStepRun = true :=
  claim2 failLib "cache" "out" 0 "/x" 100 testFS [7, 7, 7] testInfo ⟨0, 4⟩ 0
    testMacho (PyErr.libError "bad slide info") [] [Event.stepRun "processSlideInfo"]
    (by decide) rfl rfl rfl rfl rfl rfl

/-- C3: when every pass succeeds, the worker's event trace is exactly —
in this order — slide-info processing, linkedit optimization, stub fixing,
Objective-C fixing, offset optimization, and only then the serialization
actions (create directories, open the output file, write the bytes). -/
theorem claim3 (lib : Lib) (dyldPath outputDir : String) (imageIndex : Nat)
    (imagePath : String) (lvl : Nat) (fs : FS) (cacheBytes : List Nat) (info : DyldInfo)
    (image : ImageEntry) (imageOffset : Nat)
    (machoCtx m1 m2 m3 m4 m5 : MachOContext)
    (l1 l2 l3 l4 l5 : List String) (seg : SegmentCommand)
    (hne : ¬ imagePath = "")
    (h1 : fs.getFile dyldPath = some cacheBytes)
    (h2 : lib.parseDyld cacheBytes = Except.ok info)
    (h3 : info.images.get? imageIndex = some image)
    (h4 : (DyldContext.mk info cacheBytes).convertAddr image.address = some imageOffset)
    (h5 : lib.parseMachO cacheBytes imageOffset = Except.ok machoCtx)
    (hs1 : lib.processSlideInfo ⟨DyldContext.mk info cacheBytes, machoCtx⟩ = (Except.ok m1, l1))
    (hs2 : lib.optimizeLinkedit ⟨DyldContext.mk info cacheBytes, m1⟩ = (Except.ok m2, l2))
    (hs3 : lib.fixStubs ⟨DyldContext.mk info cacheBytes, m2⟩ = (Except.ok m3, l3))
    (hs4 : lib.fixObjC ⟨DyldContext.mk info cacheBytes, m3⟩ = (Except.ok m4, l4))
    (hs5 : lib.optimizeOffsets ⟨DyldContext.mk info cacheBytes, m4⟩ = (Except.ok m5, l5))
    (h7 : m5.getSegment "__LINKEDIT" = some seg) :
    (extractImage lib dyldPath outputDir imageIndex imagePath lvl fs).2.2 =
      [Event.stepRun "processSlideInfo", Event.stepRun "optimizeLinkedit",
       Event.stepRun "fixStubs", Event.stepRun "fixObjC", Event.stepRun "optimizeOffsets",
       Event.mkdirParents (pathJoin outputDir (relPathOf imagePath)),
       Event.fileOpened (pathJoin outputDir (relPathOf imagePath)),
       Event.fileWritten (pathJoin outputDir (relPathOf imagePath))
         (m5.file.take (seg.fileoff + seg.filesize))] := by
  rw [extractImage_success lib dyldPath outputDir imageIndex imagePath lvl fs
      cacheBytes info image imageOffset machoCtx m5 (l1 ++ l2 ++ l3 ++ l4 ++ l5)
      [Event.stepRun "processSlideInfo", Event.stepRun "optimizeLinkedit",
       Event.stepRun "fixStubs", Event.stepRun "fixObjC", Event.stepRun "optimizeOffsets"]
      seg hne h1 h2 h3 h4 h5
      (runPipeline_ok lib (DyldContext.mk info cacheBytes) machoCtx m1 m2 m3 m4 m5
        l1 l2 l3 l4 l5 hs1 hs2 hs3 hs4 hs5) h7]
  rfl

/-- C3, witness: the concrete trace of a successful extraction. -/
theorem claim3_witness :
    (extractImage testLib "cache" "out" 0 "/x" 30 testFS).2.2 =
      [Event.stepRun "processSlideInfo", Event.stepRun "optimizeLinkedit",
       Event.stepRun "fixStubs", Event.stepRun "fixObjC", Event.stepRun "optimizeOffsets",
       Event.mkdirParents "out/x", Event.fileOpened "out/x",
       Event.fileWritten "out/x" [7, 7]] :=
  claim3 testLib "cache" "out" 0 "/x" 30 testFS [7, 7, 7] testInfo ⟨0, 4⟩ 0
    testMacho testMacho testMacho testMacho testMacho testMacho [] [] [] [] [] ⟨1, 1⟩
    (by decide) rfl rfl rfl rfl rfl rfl rfl rfl rfl rfl rfl

/-- C4: on a successful extraction whose transformed buffer reaches the
end of `__LINKEDIT`, the output file's bytes are exactly the first
`fileoff + filesize` bytes of the transformed image buffer, and its length
equals `__LINKEDIT.fileoff + __LINKEDIT.filesize`. -/
theorem claim4 (lib : Lib) (dyldPath outputDir : String) (imageIndex : Nat)
    (imagePath : String) (lvl : Nat) (fs : FS) (cacheBytes : List Nat) (info : DyldInfo)
    (image : ImageEntry) (imageOffset : Nat) (machoCtx m5 : MachOContext)
    (logs : List String) (evs : List Event) (seg : SegmentCommand)
    (hne : ¬ imagePath = "")
    (h1 : fs.getFile dyldPath = some cacheBytes)
    (h2 : lib.parseDyld cacheBytes = Except.ok info)
    (h3 : info.images.get? imageIndex = some image)
    (h4 : (DyldContext.mk info cacheBytes).convertAddr image.address = some imageOffset)
    (h5 : lib.parseMachO cacheBytes imageOffset = Except.ok machoCtx)
    (h6 : runPipeline lib (DyldContext.mk info cacheBytes) machoCtx =
      (Except.ok m5, logs, evs))
    (h7 : m5.getSegment "__LINKEDIT" = some seg)
    (hlen : seg.fileoff + seg.filesize ≤ m5.file.length) :
    ((extractImage lib dyldPath outputDir imageIndex imagePath lvl fs).2.1).getFile
        (pathJoin outputDir (relPathOf imagePath)) =
      some (m5.file.take (seg.fileoff + seg.filesize)) ∧
    (m5.file.take (seg.fileoff + seg.filesize)).length = seg.fileoff + seg.filesize := by
  rw [extractImage_success lib dyldPath outputDir imageIndex imagePath lvl fs
      cacheBytes info image imageOffset machoCtx m5 logs evs seg hne h1 h2 h3 h4 h5 h6 h7]
  constructor
  · exact FS.getFile_setFile_same _ _ _
  · rw [List.length_take]
    exact Nat.min_eq_left hlen

/-- C4, witness: the concrete output file content and its length. -/
theorem claim4_witness :
    ((extractImage testLib "cache" "out" 0 "/x" 30 testFS).2.1).getFile "out/x" =
      some [7, 7] ∧
    (([7, 7, 7] : List Nat).take 2).length = 2 :=
  claim4 testLib "cache" "out" 0 "/x" 30 testFS [7, 7, 7] testInfo ⟨0, 4⟩ 0
    testMacho testMacho []
    [Event.stepRun "processSlideInfo", Event.stepRun "optimizeLinkedit",
     Event.stepRun "fixStubs", Event.stepRun "fixObjC", Event.stepRun "optimizeOffsets"]
    ⟨1, 1⟩ (by decide) rfl rfl rfl rfl rfl rfl rfl (by decide)

/-- C5, counterexample to the claim as stated: the mappings are private,
but the output-file write is an ordinary file-system write at
`outputDir / strippedImagePath` — when that path coincides with the cache
path (here the cache lives at `binaries/x` and image `/x` extracts into
`binaries`), the worker overwrites the original cache file: its content
changes from the original three bytes to the two extracted bytes. -/
theorem claim5_counterexample :
    (fsCex.getFile "binaries/x" = some [7, 7, 7]) ∧
    ((extractImage testLib "binaries/x" "binaries" 0 "/x" 30 fsCex).2.1).getFile
        "binaries/x" = some [7, 7] := ⟨rfl, rfl⟩

/-- C5 (amended): the worker never mutates the original cache file,
provided the image's output path differs from the cache path: whatever the
library passes do to the private image buffer, the content of the cache
file in the final file system equals its initial content. -/
theorem claim5_amended (lib : Lib) (dyldPath outputDir : String) (imageIndex : Nat)
    (imagePath : String) (lvl : Nat) (fs : FS)
    (hout : ¬ pathJoin outputDir (relPathOf imagePath) = dyldPath) :
    ((extractImage lib dyldPath outputDir imageIndex imagePath lvl fs).2.1).getFile
        dyldPath = fs.getFile dyldPath := by
  by_cases hne : imagePath = ""
  · simp only [extractImage, if_pos hne]
  · rcases hgf : fs.getFile dyldPath with _ | cacheBytes
    · simp only [extractImage, if_neg hne, hgf]
    · rcases hpd : lib.parseDyld cacheBytes with e | info
      · simp only [extractImage, if_neg hne, hgf, hpd]
      · rcases hgi : info.images.get? imageIndex with _ | image
        · simp only [extractImage, if_neg hne, hgf, hpd, DyldContext.images, hgi]
        · rcases hca : (DyldContext.mk info cacheBytes).convertAddr image.address
              with _ | imageOffset
          · simp only [extractImage, if_neg hne, hgf, hpd, DyldContext.images, hgi, hca]
          · rcases hpm : lib.parseMachO cacheBytes imageOffset with e | machoCtx
            · simp only [extractImage, if_neg hne, hgf, hpd, DyldContext.images, hgi,
                hca, hpm]
            · have hfr := tryBlock_getFile_ne lib (DyldContext.mk info cacheBytes)
                machoCtx (pathJoin outputDir (relPathOf imagePath)) dyldPath fs hout
              rcases htb : tryBlock lib (DyldContext.mk info cacheBytes) machoCtx
                  (pathJoin outputDir (relPathOf imagePath)) fs with ⟨r, logs, fs2, evs⟩
              rw [htb] at hfr
              rw [hgf] at hfr
              rcases r with e | u
              · simp only [extractImage, if_neg hne, hgf, hpd, DyldContext.images,
                  hgi, hca, hpm, htb]
                exact hfr
              · simp only [extractImage, if_neg hne, hgf, hpd, DyldContext.images,
                  hgi, hca, hpm, htb]
                exact hfr

/-- C5, witness: a concrete run with distinct output and cache paths — the
cache file is unchanged after extraction. -/
theorem claim5_witness :
    ((extractImage testLib "cache" "out" 0 "/x" 30 testFS).2.1).getFile "cache" =
      testFS.getFile "cache" :=
  claim5_amended testLib "cache" "out" 0 "/x" 30 testFS (by decide)

/-- C6: the output directory defaults to `binaries` when none is given,
and every successfully extracted image's bytes land at the output
directory joined with the image path minus its single leading slash; the
trace shows the intermediate directories being created, then the file
being opened, then written, all at that joined path. -/
theorem claim6 :
    outputDirOf none = "binaries" ∧
    (∀ (lib : Lib) (dyldPath outputDir : String) (imageIndex : Nat)
        (imagePath : String) (lvl : Nat) (fs : FS) (cacheBytes : List Nat)
        (info : DyldInfo) (image : ImageEntry) (imageOffset : Nat)
        (machoCtx m5 : MachOContext) (logs : List String) (evs : List Event)
        (seg : SegmentCommand),
      ¬ imagePath = "" →
      fs.getFile dyldPath = some cacheBytes →
      lib.parseDyld cacheBytes = Except.ok info →
      info.images.get? imageIndex = some image →
      (DyldContext.mk info cacheBytes).convertAddr image.address = some imageOffset →
      lib.parseMachO cacheBytes imageOffset = Except.ok machoCtx →
      runPipeline lib (DyldContext.mk info cacheBytes) machoCtx =
        (Except.ok m5, logs, evs) →
      m5.getSegment "__LINKEDIT" = some seg →
      ((extractImage lib dyldPath outputDir imageIndex imagePath lvl fs).2.1).getFile
          (pathJoin outputDir (relPathOf imagePath)) =
        some (m5.file.take (seg.fileoff + seg.filesize)) ∧
      (extractImage lib dyldPath outputDir imageIndex imagePath lvl fs).2.2 =
        evs ++ [Event.mkdirParents (pathJoin outputDir (relPathOf imagePath)),
                Event.fileOpened (pathJoin outputDir (relPathOf imagePath)),
                Event.fileWritten (pathJoin outputDir (relPathOf imagePath))
                  (m5.file.take (seg.fileoff + seg.filesize))]) := by
  refine ⟨rfl, ?_⟩
  intro lib dyldPath outputDir imageIndex imagePath lvl fs cacheBytes info image
    imageOffset machoCtx m5 logs evs seg hne h1 h2 h3 h4 h5 h6 h7
  rw [extractImage_success lib dyldPath outputDir imageIndex imagePath lvl fs
      cacheBytes info image imageOffset machoCtx m5 logs evs seg hne h1 h2 h3 h4 h5 h6 h7]
  exact ⟨FS.getFile_setFile_same _ _ _, rfl⟩

/-- C6, witness: a concrete extraction of image `/x` into directory `out`
writes `out/x` and the trace shows mkdir, then open, then write there. -/
theorem claim6_witness :
    ((extractImage testLib "cache" "out" 0 "/x" 30 testFS).2.1).getFile "out/x" =
      some [7, 7] ∧
    (extractImage testLib "cache" "out" 0 "/x" 30 testFS).2.2 =
      [Event.stepRun "processSlideInfo", Event.stepRun "optimizeLinkedit",
       Event.stepRun "fixStubs", Event.stepRun "fixObjC",
       Event.stepRun "optimizeOffsets"] ++
        [Event.mkdirParents "out/x", Event.fileOpened "out/x",
         Event.fileWritten "out/x" [7, 7]] :=
  claim6.2 testLib "cache" "out" 0 "/x" 30 testFS [7, 7, 7] testInfo ⟨0, 4⟩ 0
    testMacho testMacho []
    [Event.stepRun "processSlideInfo", Event.stepRun "optimizeLinkedit",
     Event.stepRun "fixStubs", Event.stepRun "fixObjC", Event.stepRun "optimizeOffsets"]
    ⟨1, 1⟩ (by decide) rfl rfl rfl rfl rfl rfl rfl

/-- C7: the pool is constructed with exactly the worker-initializer of the
source, and that initializer sets the `SIGINT` disposition of the worker
process to ignore, leaving every other signal's disposition unchanged. -/
theorem claim7 :
    mainPool.initFn = workerSetup ∧
    (∀ table : Nat → Disposition, workerSetup table SIGINT = Disposition.SIG_IGN) ∧
    (∀ (table : Nat → Disposition) (s : Nat), ¬ s = SIGINT →
      workerSetup table s = table s) := by
  refine ⟨rfl, fun table => ?_, fun table s hs => ?_⟩
  · simp [workerSetup, signalSet]
  · simp [workerSetup, signalSet, hs]

/-- C7, witness: on a concrete all-default table the initializer ignores
signal 2 (`SIGINT`) and leaves signal 15 at its default. -/
theorem claim7_witness :
    workerSetup (fun _ => Disposition.SIG_DFL) 2 = Disposition.SIG_IGN ∧
    workerSetup (fun _ => Disposition.SIG_DFL) 15 = Disposition.SIG_DFL :=
  ⟨claim7.2.1 (fun _ => Disposition.SIG_DFL),
   claim7.2.2 (fun _ => Disposition.SIG_DFL) 15 (by decide)⟩

/-- C8: the coordinator enumerates the image paths in one pass and then
submits exactly one job per image — the job list it builds has one entry
per image, and the entry at position `i` carries index argument `i` and
the `i`-th image path; and whatever order the completion loop's readiness
schedule makes jobs ready in, a completed loop has handled exactly the
submitted jobs (a permutation — completion order need not match
submission order). -/
theorem claim8 :
    (∀ (lib : Lib) (dyldPath : String) (output : Option String) (verbosity : Fin 4)
        (fs : FS) (cacheBytes : List Nat) (info : DyldInfo),
      fs.getFile dyldPath = some cacheBytes →
      lib.parseDyld cacheBytes = Except.ok info →
      mainSubmit lib dyldPath output verbosity fs =
        Except.ok (submitAux dyldPath (outputDirOf output) (loggingLevelOf verbosity) 0
          (imagePathsOf info cacheBytes)) ∧
      (submitAux dyldPath (outputDirOf output) (loggingLevelOf verbosity) 0
          (imagePathsOf info cacheBytes)).length = info.images.length) ∧
    (∀ (dyldPath outputDir : String) (level : Nat) (paths : List String)
        (i : Nat) (p : String),
      paths.get? i = some p →
      (submitAux dyldPath outputDir level 0 paths).get? i =
        some (p, JobArgs.mk dyldPath outputDir i p level)) ∧
    (∀ (ready : Nat → Job → Bool) (fuel : Nat) (jobs : List Job) (st' : LoopState),
      collectLoop ready fuel 0 jobs (LoopState.mk [] [] []) = some (Except.ok st') →
      List.Perm st'.processed jobs) := by
  refine ⟨?_, ?_, ?_⟩
  · intro lib dyldPath output verbosity fs cacheBytes info h1 h2
    constructor
    · simp only [mainSubmit, h1, h2]
    · rw [submitAux_length]
      simp [imagePathsOf, DyldContext.images]
  · intro dyldPath outputDir level paths i p hp
    rw [submitAux_get?, hp]
    simp
  · intro ready fuel jobs st' h
    obtain ⟨d, hd, hperm, _, _, _⟩ := collectLoop_spec ready fuel 0 jobs _ _ h
    have hd' : st'.processed = d := by simpa using hd
    rw [hd']
    exact hperm.symm

/-- C8, witness: a concrete submission (index arguments 0 and 1 in cache
order) and a concrete completion run in which both jobs are ready at once,
are processed in reverse submission order, and still form a permutation of
the submitted jobs. -/
theorem claim8_witness :
    (mainSubmit testLib "cache" none 1 testFS =
      Except.ok (submitAux "cache" "binaries" 30 0 (imagePathsOf testInfo [7, 7, 7]))) ∧
    ((submitAux "d" "o" 30 0 ["a", "b"]).get? 1 =
      some ("b", JobArgs.mk "d" "o" 1 "b" 30)) ∧
    List.Perm
      (LoopState.mk
        ["Processed: b", mkSummary "b" "y", "Processed: a"]
        [mkSummary "b" "y"]
        [("b", Except.ok "y"), ("a", Except.ok "")]).processed
      [("a", Except.ok ""), ("b", Except.ok "y")] :=
  ⟨(claim8.1 testLib "cache" none 1 testFS [7, 7, 7] testInfo rfl rfl).1,
   claim8.2.1 "d" "o" 30 ["a", "b"] 1 "b" rfl,
   claim8.2.2 (fun _ _ => true) 2 [("a", Except.ok ""), ("b", Except.ok "y")]
     (LoopState.mk
       ["Processed: b", mkSummary "b" "y", "Processed: a"]
       [mkSummary "b" "y"]
       [("b", Except.ok "y"), ("a", Except.ok "")]) rfl⟩

/-- C9: in any completed run of the coordinator's collection loop, the
recorded `jobOutputs` are the summary blocks of exactly those handled
images whose returned log text was non-empty (failed images included —
their log carries the error), in handling order; the final aggregated
summary printed after the loop is their concatenation; each handled image
got its per-image `Processed:` line; and an image's summary block was
printed exactly when its log text was non-empty. -/
theorem claim9 (ready : Nat → Job → Bool) (fuel : Nat) (jobs : List Job)
    (st' : LoopState)
    (h : collectLoop ready fuel 0 jobs (LoopState.mk [] [] []) = some (Except.ok st')) :
    st'.jobOutputs = summariesOf st'.processed ∧
    String.join st'.jobOutputs ∈ finalPrints st' ∧
    (∀ j ∈ st'.processed, ("Processed: " ++ imageNameOf j.1) ∈ st'.prints ∧
      (∀ out, j.2 = Except.ok out → ¬ out = "" →
        mkSummary (imageNameOf j.1) out ∈ st'.prints)) := by
  obtain ⟨d, hd, hperm, hjo, hpr, hjobs⟩ := collectLoop_spec ready fuel 0 jobs _ _ h
  have hd' : st'.processed = d := by simpa using hd
  have hjo' : st'.jobOutputs = summariesOf d := by simpa using hjo
  refine ⟨by rw [hd', hjo'], ?_, ?_⟩
  · simp [finalPrints]
  · intro j hj
    exact hjobs j (hd' ▸ hj)

/-- C9, witness: in the concrete two-job run only image `b` produced log
output, and `jobOutputs` is exactly the summary block list of the handled
jobs with non-empty output. -/
theorem claim9_witness :
    (LoopState.mk
      ["Processed: b", mkSummary "b" "y", "Processed: a"]
      [mkSummary "b" "y"]
      [("b", Except.ok "y"), ("a", Except.ok "")]).jobOutputs =
    summariesOf
      (LoopState.mk
        ["Processed: b", mkSummary "b" "y", "Processed: a"]
        [mkSummary "b" "y"]
        [("b", Except.ok "y"), ("a", Except.ok "")]).processed :=
  (claim9 (fun _ _ => true) 2 [("a", Except.ok ""), ("b", Except.ok "y")]
    (LoopState.mk
      ["Processed: b", mkSummary "b" "y", "Processed: a"]
      [mkSummary "b" "y"]
      [("b", Except.ok "y"), ("a", Except.ok "")]) rfl).1

/-- C10: on an empty image path string, `_extractImage` raises
`IndexError` at the `imagePath[0]` test, before the `try:` block's
exception handler is in effect: the worker's result is the escaping
exception (not a returned log blob), the file system is untouched and no
event was traced — the leading-slash strip is well-defined only for
non-empty image paths. -/
theorem claim10 (lib : Lib) (dyldPath outputDir : String) (imageIndex : Nat)
    (loggingLevel : Nat) (fs : FS) :
    extractImage lib dyldPath outputDir imageIndex "" loggingLevel fs =
      (Except.error PyErr.indexError, fs, []) := by
  rw [extractImage, if_pos rfl]

end DyldExtract
